import Mathlib

/-!
Verification of `quickNAT_pytorch` data utilities (`utils/data_utils.py`) and
logging utilities (`utils/log_utils.py`) against their natural-language
specification.

Arrays are modelled as a shape list together with a flat row-major data list of
rationals (`nibabel.get_fdata` yields floating-point data for both intensity
volumes and labelmaps; we use exact rationals).  Fallible numpy operations
(`np.concatenate`, `reshape`, indexing) return `Option`.
-/

/-- A dense numpy-style array: a shape and the row-major flat data. -/
structure NDArray where
  shape : List Nat
  data : List ℚ
deriving DecidableEq

/-- Basic indexing `a[i]` along axis 0: sub-array of shape `a.shape.tail`.
`none` models the `IndexError` raised on an out-of-range or rank-0 access. -/
def NDArray.get (a : NDArray) (i : Nat) : Option NDArray :=
  match a.shape with
  | [] => none
  | n :: tl =>
    if i < n then some ⟨tl, (a.data.drop (i * tl.prod)).take tl.prod⟩ else none

/-- `np.concatenate(arrays)` along axis 0: every input must have the same rank
(at least 1) and identical trailing dimensions; otherwise numpy raises, which
we model as `none`. -/
def npConcatenate (arrays : List NDArray) : Option NDArray :=
  match arrays with
  | [] => none
  | a :: rest =>
    match a.shape with
    | [] => none
    | _ :: tl =>
      if rest.all (fun b => b.shape.length == a.shape.length && b.shape.tail == tl) then
        some ⟨(arrays.map (fun b => b.shape.headD 0)).sum :: tl,
              (arrays.map NDArray.data).flatten⟩
      else none

/-- `a.reshape((-1, h, w))`: succeeds exactly when the element count is a
positive multiple of `h * w`; otherwise numpy raises (`none`). -/
def reshapeNeg1 (a : NDArray) (h w : Nat) : Option NDArray :=
  if 0 < h * w ∧ h * w ∣ a.data.length then
    some ⟨[a.data.length / (h * w), h, w], a.data⟩
  else none

/-- `np.concatenate(arrays).reshape((-1, h, w))` as used in `_convertToHd5`. -/
def concatSlices (arrays : List NDArray) (h w : Nat) : Option NDArray :=
  match npConcatenate arrays with
  | some c => reshapeNeg1 c h w
  | none => none

/-- `X[:, np.newaxis, :, :]`: inserts a size-1 axis at position 1.  Requires
rank at least 3 (fewer dimensions raise an `IndexError`, modelled as `none`). -/
def expandDims1 (a : NDArray) : Option NDArray :=
  match a.shape with
  | n :: h :: w :: rest => some ⟨n :: 1 :: h :: w :: rest, a.data⟩
  | _ => none

/-- `ImdbData` from `data_utils.py`: the in-memory dataset over parallel
image / label / weight arrays. -/
structure ImdbData where
  X : NDArray
  y : NDArray
  w : NDArray
deriving DecidableEq

/-- `ImdbData.__init__`: `self.X = X if len(X.shape) == 4 else X[:, np.newaxis, :, :]`;
`y` and `w` are stored unchanged. -/
def ImdbData.make (X y w : NDArray) : Option ImdbData :=
  if X.shape.length = 4 then some ⟨X, y, w⟩
  else
    match expandDims1 X with
    | some X2 => some ⟨X2, y, w⟩
    | none => none

/-- `ImdbData.__len__`: `len(self.y)`, i.e. the leading dimension of `y`. -/
def ImdbData.size (d : ImdbData) : Nat := d.y.shape.headD 0

/-- `ImdbData.__getitem__`: the `(image, label, weight)` triple at `index`
(`torch.from_numpy` preserves shape and content). -/
def ImdbData.getItem (d : ImdbData) (index : Nat) : Option (NDArray × NDArray × NDArray) :=
  match d.X.get index, d.y.get index, d.w.get index with
  | some img, some label, some weight => some (img, label, weight)
  | _, _, _ => none

/-- Auxiliary loop for Python `str.splitlines` over the character list. -/
def pySplitlinesAux : List Char → List Char → List String
  | [], cur => if cur.isEmpty then [] else [⟨cur.reverse⟩]
  | c :: cs, cur =>
    if c = '\n' then ⟨cur.reverse⟩ :: pySplitlinesAux cs []
    else pySplitlinesAux cs (c :: cur)

/-- Python `str.splitlines()` (newline-delimited; a trailing newline does not
produce a final empty entry, and an empty string yields `[]`). -/
def pySplitlines (s : String) : List String := pySplitlinesAux s.data []

/-- Whether a string starts with the separator `'/'`. -/
def startsSlash (s : String) : Bool := s.data.head? == some '/'

/-- Whether a string ends with the separator `'/'`. -/
def endsSlash (s : String) : Bool := s.data.getLast? == some '/'

/-- POSIX `os.path.join(path, b)` for one extra component, following
`posixpath.join`: an absolute component replaces the path; joining onto an
empty or slash-terminated path appends directly; otherwise a `'/'` is
interposed. -/
def osJoin2 (path b : String) : String :=
  if startsSlash b then b
  else if path.data.isEmpty || endsSlash path then path ++ b
  else path ++ "/" ++ b

/-- `os.path.join` with two extra components (left fold, as in `posixpath`). -/
def osJoin3 (a b c : String) : String := osJoin2 (osJoin2 a b) c

/-- Python truthiness of the `remap_config` argument (`if remap_config:`):
`None` and the empty string are falsy. -/
def pyTruthy : Option String → Bool
  | none => false
  | some s => !s.data.isEmpty

/-- `np.min` over the flat data (the value on an empty list is irrelevant to
the claims; numpy raises there). -/
def npMin : List ℚ → ℚ
  | [] => 0
  | x :: xs => xs.foldl min x

/-- `np.max` over the flat data. -/
def npMax : List ℚ → ℚ
  | [] => 0
  | x :: xs => xs.foldl max x

/-- Line 69 of `data_utils.py`:
`volume = (volume - np.min(volume)) / (np.max(volume) - np.min(volume))`. -/
def normalizeMinMax (a : NDArray) : NDArray :=
  ⟨a.shape, a.data.map (fun x => (x - npMin a.data) / (npMax a.data - npMin a.data))⟩

/-- The `preprocessor` module imported by `data_utils.py` is not part of this
repository snapshot; its five transforms are treated as opaque functions on
(volume, labelmap) pairs, exactly as `load_and_preprocess` calls them. -/
structure Preprocessor where
  rotate_orientation : NDArray → NDArray → String → NDArray × NDArray
  reduce_slices : NDArray → NDArray → NDArray × NDArray
  remap_labels : NDArray → String → NDArray
  remove_black : NDArray → NDArray → NDArray × NDArray
  estimate_weights_mfb : NDArray → NDArray × NDArray

/-- The body of the per-volume loop of `load_and_preprocess` (lines 68-79):
min-max normalization, then `rotate_orientation`, then the optional
`reduce_slices`, `remap_labels` and `remove_black` steps, guarded exactly as in
the source. -/
def processVolume (P : Preprocessor) (orientation : String)
    (reduce_slices remove_black : Bool) (remap_config : Option String)
    (q : NDArray × NDArray) : NDArray × NDArray :=
  let volume := normalizeMinMax q.1
  let r1 := P.rotate_orientation volume q.2 orientation
  let r2 := if reduce_slices then P.reduce_slices r1.1 r1.2 else r1
  let l3 := if pyTruthy remap_config then P.remap_labels r2.2 (remap_config.getD "") else r2.2
  let r4 := if remove_black then P.remove_black r2.1 l3 else (r2.1, l3)
  r4

/-- The `file_paths` list comprehension of `load_and_preprocess` (lines 62-63):
`[os.path.join(data_dir, vol, 'mri/orig.mgz'), os.path.join(label_dir, vol + '_glm.mgz')]`. -/
def filePaths (data_dir label_dir : String) (vols : List String) : List (String × String) :=
  vols.map (fun vol =>
    (osJoin3 data_dir vol "mri/orig.mgz", osJoin2 label_dir (vol ++ "_glm.mgz")))

/-- The main loop of `load_and_preprocess` (lines 67-89): load both files
(`nb.load(...).get_fdata()`, modelled by `loader`; a failed load aborts the
whole batch), process the volume, append to the four parallel lists, and when
`return_weights` additionally append both results of `estimate_weights_mfb`. -/
def lapLoop (loader : String → Option NDArray) (P : Preprocessor) (orientation : String)
    (return_weights reduce_slices remove_black : Bool) (remap_config : Option String) :
    List (String × String) → Option (List NDArray × List NDArray × List NDArray × List NDArray)
  | [] => some ([], [], [], [])
  | fp :: rest =>
    match loader fp.1, loader fp.2 with
    | some volume0, some labelmap0 =>
      let vl := processVolume P orientation reduce_slices remove_black remap_config (volume0, labelmap0)
      match lapLoop loader P orientation return_weights reduce_slices remove_black remap_config rest with
      | some (vs, ls, cs, ws) =>
        if return_weights then
          let cw := P.estimate_weights_mfb vl.2
          some (vl.1 :: vs, vl.2 :: ls, cw.1 :: cs, cw.2 :: ws)
        else
          some (vl.1 :: vs, vl.2 :: ls, cs, ws)
      | none => none
    | _, _ => none

/-- `load_and_preprocess` (lines 51-94): split the volumes file into lines,
build the per-volume file paths, and run the loop.  The four parallel lists
are returned (when `return_weights` is false the two weight lists stay empty,
matching the two-tuple return of the source). -/
def load_and_preprocess (loader : String → Option NDArray) (P : Preprocessor)
    (data_dir label_dir volumes_txt : String) (orientation : String)
    (return_weights reduce_slices remove_black : Bool) (remap_config : Option String) :
    Option (List NDArray × List NDArray × List NDArray × List NDArray) :=
  lapLoop loader P orientation return_weights reduce_slices remove_black remap_config
    (filePaths data_dir label_dir (pySplitlines volumes_txt))

/-- Insertion into a sorted list of rationals (ascending). -/
def insertSorted (x : ℚ) : List ℚ → List ℚ
  | [] => [x]
  | y :: ys => if x ≤ y then x :: y :: ys else y :: insertSorted x ys

/-- Insertion sort on rationals. -/
def sortQ (l : List ℚ) : List ℚ := l.foldr insertSorted []

/-- `np.median`: middle element of the sorted list, or the mean of the two
middle elements for even length. -/
def medianQ (l : List ℚ) : ℚ :=
  let s := sortQ l
  let n := s.length
  if n = 0 then 0
  else if n % 2 = 1 then s.getD (n / 2) 0
  else (s.getD (n / 2 - 1) 0 + s.getD (n / 2) 0) / 2

/-- Modelled from the spec: `preprocessor.estimate_weights_mfb` is imported by
`data_utils.py` but its source file is not part of this repository snapshot.
Following the spec: per-class pixel frequency over the whole labelmap;
`ClassWeight[c] = median(frequencies) / frequency[c]` with the median taken
over the frequencies of the present classes and absent classes getting weight
exactly 0; it produces the per-class `ClassWeightVector` (length `num_class`)
together with the `PixelWeightMap` assigning each pixel the weight of its
class. -/
def estimate_weights_mfb_spec (num_class : Nat) (labelmap : NDArray) : NDArray × NDArray :=
  let freq : Nat → Nat := fun c => (labelmap.data.filter (fun x => x == (c : ℚ))).length
  let present := (List.range num_class).filter (fun c => freq c != 0)
  let med := medianQ (present.map (fun c => ((freq c : ℚ))))
  let cw : Nat → ℚ := fun c => if freq c = 0 then 0 else med / (freq c : ℚ)
  (⟨[num_class], (List.range num_class).map cw⟩,
   ⟨labelmap.shape, labelmap.data.map (fun x =>
      match ((List.range num_class).filter (fun c => ((c : Nat) : ℚ) == x)).head? with
      | some c => cw c
      | none => 0)⟩)

/-- `_convertToHd5`, concatenation part (lines 113-115): read `(no_slices, H, W)`
from the first processed volume (a tuple unpacking that raises when the list is
empty or the first array is not rank 3), then concatenate-and-reshape the data,
label and class-weight lists and concatenate the weight list. -/
def convertToHd5 (data_h5 label_h5 class_weights_h5 weights_h5 : List NDArray) :
    Option (NDArray × NDArray × NDArray × NDArray) :=
  match data_h5 with
  | [] => none
  | d0 :: _ =>
    match d0.shape with
    | [_no_slices, hh, ww] =>
      match concatSlices data_h5 hh ww, concatSlices label_h5 hh ww,
            concatSlices class_weights_h5 hh ww, npConcatenate weights_h5 with
      | some a, some b, some c, some d => some (a, b, c, d)
      | _, _, _, _ => none
    | _ => none

/-- `_convertToHd5` end to end (lines 97-115): `load_and_preprocess` with all
four optional features enabled, then the concatenation step. -/
def convertToHd5Full (loader : String → Option NDArray) (P : Preprocessor)
    (data_dir label_dir volumes_txt : String) (remap_config : Option String)
    (orientation : String) : Option (NDArray × NDArray × NDArray × NDArray) :=
  match load_and_preprocess loader P data_dir label_dir volumes_txt orientation
      true true true remap_config with
  | some (dh, lh, ch, wh) => convertToHd5 dh lh ch wh
  | none => none

/-- Follows the spec's words (§4.2, §9): the optional pipeline is an explicit
ordered list of transform steps — orientation, then (if enabled)
`reduce_slices`, then (if enabled) `remap_labels`, then (if enabled)
`remove_black` — to be applied after normalization. -/
def specSteps (P : Preprocessor) (orientation : String)
    (reduce_slices remove_black : Bool) (remap_config : Option String) :
    List (NDArray × NDArray → NDArray × NDArray) :=
  [fun q => P.rotate_orientation q.1 q.2 orientation]
    ++ (if reduce_slices then [fun q => P.reduce_slices q.1 q.2] else [])
    ++ (if pyTruthy remap_config then
          [fun q => (q.1, P.remap_labels q.2 (remap_config.getD ""))] else [])
    ++ (if remove_black then [fun q => P.remove_black q.1 q.2] else [])

/-- Follows the spec's words (§4.1 invariant, §4.2): min-max normalize the
intensities into [0,1] first, then fold the ordered step list over the pair. -/
def specProcessVolume (P : Preprocessor) (orientation : String)
    (reduce_slices remove_black : Bool) (remap_config : Option String)
    (q : NDArray × NDArray) : NDArray × NDArray :=
  (specSteps P orientation reduce_slices remove_black remap_config).foldl
    (fun acc f => f acc) (normalizeMinMax q.1, q.2)

/-- Follows the spec's words: the per-volume loop with the spec-ordered
pipeline, `estimate_weights_mfb` applied last, one entry per volume in input
order. -/
def specLapLoop (loader : String → Option NDArray) (P : Preprocessor) (orientation : String)
    (return_weights reduce_slices remove_black : Bool) (remap_config : Option String) :
    List (String × String) → Option (List NDArray × List NDArray × List NDArray × List NDArray)
  | [] => some ([], [], [], [])
  | fp :: rest =>
    match loader fp.1, loader fp.2 with
    | some volume0, some labelmap0 =>
      let vl := specProcessVolume P orientation reduce_slices remove_black remap_config
        (volume0, labelmap0)
      match specLapLoop loader P orientation return_weights reduce_slices remove_black
          remap_config rest with
      | some (vs, ls, cs, ws) =>
        if return_weights then
          let cw := P.estimate_weights_mfb vl.2
          some (vl.1 :: vs, vl.2 :: ls, cw.1 :: cs, cw.2 :: ws)
        else
          some (vl.1 :: vs, vl.2 :: ls, cs, ws)
      | none => none
    | _, _ => none

/-- Follows the spec's words: `load_and_preprocess` built from the spec-side
pipeline, for comparison with the source-side definition. -/
def spec_load_and_preprocess (loader : String → Option NDArray) (P : Preprocessor)
    (data_dir label_dir volumes_txt : String) (orientation : String)
    (return_weights reduce_slices remove_black : Bool) (remap_config : Option String) :
    Option (List NDArray × List NDArray × List NDArray × List NDArray) :=
  specLapLoop loader P orientation return_weights reduce_slices remove_black remap_config
    (filePaths data_dir label_dir (pySplitlines volumes_txt))

/-- Loading alone (the `nb.load(...).get_fdata()` calls of the loop), used to
state order preservation: `none` as soon as any entry fails to load. -/
def loadVolumes (loader : String → Option NDArray) :
    List (String × String) → Option (List (NDArray × NDArray))
  | [] => some []
  | fp :: rest =>
    match loader fp.1, loader fp.2 with
    | some v, some l =>
      match loadVolumes loader rest with
      | some pairs => some ((v, l) :: pairs)
      | none => none
    | _, _ => none

/-- Events on persisted-file (HDF5) handles, identified by file path. -/
inductive HEvent where
  | openF : String → HEvent
  | closeF : String → HEvent
  | createD : String → String → HEvent
deriving DecidableEq

/-- One handle-state step: opens push, closes remove, dataset creations do not
touch handle state. -/
def hstep (acc : List String) (e : HEvent) : List String :=
  match e with
  | .openF f => f :: acc
  | .closeF f => acc.erase f
  | .createD _ _ => acc

/-- The handles still open after a sequence of events. -/
def openAfter (events : List HEvent) : List String := events.foldl hstep []

/-- The `data_params` dictionary consumed by `get_data`. -/
structure DataParams where
  data_dir : String
  train_data_file : String
  train_label_file : String
  train_class_weights_file : String
  train_weights_file : String
  test_data_file : String
  test_label_file : String
  test_class_weights_file : String
  test_weights_file : String

/-- The eight files `get_data` opens, in source order (lines 35-43). -/
def gdPaths (p : DataParams) : List String :=
  [osJoin2 p.data_dir p.train_data_file,
   osJoin2 p.data_dir p.train_label_file,
   osJoin2 p.data_dir p.train_class_weights_file,
   osJoin2 p.data_dir p.train_weights_file,
   osJoin2 p.data_dir p.test_data_file,
   osJoin2 p.data_dir p.test_label_file,
   osJoin2 p.data_dir p.test_class_weights_file,
   osJoin2 p.data_dir p.test_weights_file]

/-- `get_data` (lines 34-48): open the eight HDF5 files (none is ever closed),
read the named datasets (`store` maps file path and dataset key to contents),
and build the train and test `ImdbData` from data, label, and *class* weights;
the two per-pixel weight files are opened but never read. -/
def get_data (store : String → String → NDArray) (p : DataParams) :
    Option (ImdbData × ImdbData) × List HEvent :=
  (match
      ImdbData.make (store (osJoin2 p.data_dir p.train_data_file) "OASIS_data_train")
        (store (osJoin2 p.data_dir p.train_label_file) "OASIS_label_train")
        (store (osJoin2 p.data_dir p.train_class_weights_file) "OASIS_class_weights_train"),
      ImdbData.make (store (osJoin2 p.data_dir p.test_data_file) "OASIS_data_test")
        (store (osJoin2 p.data_dir p.test_label_file) "OASIS_label_test")
        (store (osJoin2 p.data_dir p.test_class_weights_file) "OASIS_class_weights_test") with
    | some tr, some te => some (tr, te)
    | _, _ => none,
   (gdPaths p).map HEvent.openF)

/-- The result of `get_data` as a function of only the six dataset reads it
actually uses (data, label and class weights for each split). -/
def gdPure (dtr ltr cwtr dte lte cwte : NDArray) : Option (ImdbData × ImdbData) :=
  match ImdbData.make dtr ltr cwtr, ImdbData.make dte lte cwte with
  | some tr, some te => some (tr, te)
  | _, _ => none

/-- The eight files the `__main__` block opens for writing (lines 149-164), in
`with`-statement order, for destination folder `d`. -/
def mainWriteFiles (d : String) : List String :=
  [osJoin2 d "Data_train.h5", osJoin2 d "Label_train.h5", osJoin2 d "Weight_train.h5",
   osJoin2 d "Class_Weight_train.h5", osJoin2 d "Data_test.h5", osJoin2 d "Label_test.h5",
   osJoin2 d "Weight_test.h5", osJoin2 d "Class_Weight_test.h5"]

/-- The eight `create_dataset` calls of the `__main__` block (lines 165-172). -/
def mainCreates (d : String) : List HEvent :=
  [.createD (osJoin2 d "Data_train.h5") "OASIS_data_train",
   .createD (osJoin2 d "Label_train.h5") "OASIS_label_train",
   .createD (osJoin2 d "Class_Weight_train.h5") "OASIS_class_weights_train",
   .createD (osJoin2 d "Weight_train.h5") "OASIS_weights_train",
   .createD (osJoin2 d "Data_test.h5") "OASIS_data_test",
   .createD (osJoin2 d "Label_test.h5") "OASIS_label_test",
   .createD (osJoin2 d "Class_Weight_test.h5") "OASIS_class_weights_test",
   .createD (osJoin2 d "Weight_test.h5") "OASIS_weights_test"]

/-- The handle trace of the `__main__` write block: the `with` statement opens
all eight files, the body performs the `create_dataset` calls (if call number
`k` raises — `failAt = some k` — the later ones are skipped), and the `with`
statement closes every handle on both the normal and the exceptional exit
path (in reverse acquisition order). -/
def mainWriteTrace (d : String) (failAt : Option Nat) : List HEvent :=
  ((mainWriteFiles d).map HEvent.openF)
    ++ (match failAt with
        | none => mainCreates d
        | some k => (mainCreates d).take k)
    ++ ((mainWriteFiles d).reverse.map HEvent.closeF)

/-- Whether `q` lies inside the directory tree rooted at `root` (the root
itself or any path below it), for modelling `shutil.rmtree`. -/
def underDir (root q : String) : Bool :=
  root == q || (root ++ "/").data.isPrefixOf q.data

/-- `shutil.rmtree(root)` on a filesystem modelled as the list of existing
paths: every path in the tree rooted at `root` disappears. -/
def rmtree (root : String) (fs : List String) : List String :=
  fs.filter (fun q => !(underDir root q))

/-- The train log directory `os.path.join(log_dir_name, exp_name, "train")`. -/
def trainLogPath (log_dir_name exp_name : String) : String :=
  osJoin3 log_dir_name exp_name "train"

/-- The val log directory `os.path.join(log_dir_name, exp_name, "val")`. -/
def valLogPath (log_dir_name exp_name : String) : String :=
  osJoin3 log_dir_name exp_name "val"

/-- `LogWriter.__init__` (lines 20-40), filesystem effect only: when
`use_last_checkpoint` is false, each of the two log directories is
`shutil.rmtree`-d if it exists; then the two `SummaryWriter`s create their log
directories. -/
def logWriterInit (log_dir_name exp_name : String) (use_last_checkpoint : Bool)
    (fs : List String) : List String :=
  let train_log_path := trainLogPath log_dir_name exp_name
  let val_log_path := valLogPath log_dir_name exp_name
  let fs1 :=
    if use_last_checkpoint then fs
    else
      let fsa := if train_log_path ∈ fs then rmtree train_log_path fs else fs
      if val_log_path ∈ fsa then rmtree val_log_path fsa else fsa
  train_log_path :: val_log_path :: fs1

/-- A per-phase confusion matrix (`num_class × num_class`). -/
def Mat (n : Nat) : Type := Fin n → Fin n → ℚ

/-- The two per-phase confusion accumulators `self._cm`. -/
structure CMState (n : Nat) where
  train : Mat n
  val : Mat n

/-- The phase key of the `self._cm` dictionary. -/
inductive Phase where
  | train
  | val

/-- `self._cm[phase]`. -/
def CMState.phaseGet {n : Nat} (s : CMState n) : Phase → Mat n
  | Phase.train => s.train
  | Phase.val => s.val

/-- `init_cm` (lines 157-161): both accumulators become the zero matrix. -/
def init_cm (n : Nat) : CMState n :=
  ⟨fun _ _ => 0, fun _ _ => 0⟩

/-- `update_cm_per_iter` (lines 54-58), accumulation effect:
`self._cm[phase] += cm_batch` (the batch matrix comes from the external
evaluator and is the abstract input here). -/
def update_cm_per_iter {n : Nat} (phase : Phase) (cm_batch : Mat n) (s : CMState n) :
    CMState n :=
  match phase with
  | Phase.train => { s with train := fun i j => s.train i j + cm_batch i j }
  | Phase.val => { s with val := fun i j => s.val i j + cm_batch i j }

/-- `cm_per_epoch` (lines 60-65): read `self._cm[phase] / (i_batch + 1)` for
plotting, then `init_cm` resets the accumulators. -/
def cm_per_epoch {n : Nat} (phase : Phase) (i_batch : Nat) (s : CMState n) :
    Mat n × CMState n :=
  ((fun i j => s.phaseGet phase i j / ((i_batch : ℚ) + 1)), init_cm n)

theorem NDArray.get_shape (a : NDArray) (i n : Nat) (tl : List Nat)
    (hs : a.shape = n :: tl) (hi : i < n) :
    ∃ sub, a.get i = some sub ∧ sub.shape = tl := by
  refine ⟨⟨tl, (a.data.drop (i * tl.prod)).take tl.prod⟩, ?_, rfl⟩
  simp [NDArray.get, hs, hi]

theorem cm_update_phaseGet {n : Nat} (phase : Phase) (M : Mat n) (s : CMState n) :
    (update_cm_per_iter phase M s).phaseGet phase
      = fun i j => s.phaseGet phase i j + M i j := by
  cases phase <;> rfl

/-- C5: starting from a freshly reset accumulator, N update calls each adding
the same batch matrix M leave the accumulator for that phase at N·M; the
per-epoch flush resets the accumulator state to `init_cm`, whose matrices are
zero (so flushing is a state change, not idempotent reading). -/
theorem confusion_accumulator_n_batches_flush_resets {n : Nat} (bN : Nat) (phase : Phase)
    (M : Mat n) :
    ((update_cm_per_iter phase M)^[bN] (init_cm n)).phaseGet phase
        = (fun i j => (bN : ℚ) * M i j)
  ∧ (∀ (s : CMState n) (b : Nat), (cm_per_epoch phase b s).2 = init_cm n)
  ∧ (init_cm n).phaseGet phase = (fun _ _ => 0) := by
  refine ⟨?_, fun s b => rfl, by cases phase <;> rfl⟩
  induction bN with
  | zero => cases phase <;> funext i j <;> simp [init_cm, CMState.phaseGet]
  | succ k ih =>
    rw [Function.iterate_succ_apply', cm_update_phaseGet, ih]
    funext i j
    push_cast
    ring

/-- C4: `ImdbData` built from a rank-3 image array `(N,H,W)` stores the array
with an inserted size-1 channel axis and `get(i)` returns an image of shape
`(1,H,W)`; a rank-4 `(N,C,H,W)` array is stored unchanged and `get(i)` returns
an image of shape `(C,H,W)`; the label and weight arrays pass through
unmodified in both cases. -/
theorem imdbData_rank_coercion_get_shapes :
    (∀ (X y w : NDArray) (N H W i : Nat), X.shape = [N, H, W] → i < N →
        (y.get i).isSome = true → (w.get i).isSome = true →
        ImdbData.make X y w = some ⟨⟨[N, 1, H, W], X.data⟩, y, w⟩ ∧
        ((ImdbData.mk ⟨[N, 1, H, W], X.data⟩ y w).getItem i).map (fun t => t.1.shape)
          = some [1, H, W])
  ∧ (∀ (X y w : NDArray) (N C H W i : Nat), X.shape = [N, C, H, W] → i < N →
        (y.get i).isSome = true → (w.get i).isSome = true →
        ImdbData.make X y w = some ⟨X, y, w⟩ ∧
        ((ImdbData.mk X y w).getItem i).map (fun t => t.1.shape) = some [C, H, W]) := by
  constructor
  · intro X y w N H W i hX hi hy hw
    obtain ⟨ly, hly⟩ := Option.isSome_iff_exists.mp hy
    obtain ⟨lw, hlw⟩ := Option.isSome_iff_exists.mp hw
    obtain ⟨img, himg, hshape⟩ :=
      NDArray.get_shape ⟨[N, 1, H, W], X.data⟩ i N [1, H, W] rfl hi
    constructor
    · simp [ImdbData.make, expandDims1, hX]
    · simp [ImdbData.getItem, himg, hly, hlw, hshape]
  · intro X y w N C H W i hX hi hy hw
    obtain ⟨ly, hly⟩ := Option.isSome_iff_exists.mp hy
    obtain ⟨lw, hlw⟩ := Option.isSome_iff_exists.mp hw
    obtain ⟨img, himg, hshape⟩ := NDArray.get_shape X i N [C, H, W] hX hi
    constructor
    · simp [ImdbData.make, hX]
    · simp [ImdbData.getItem, himg, hly, hlw, hshape]

/-- Witness for C4 at concrete inputs: a rank-3 image `(1,2,2)` and a rank-4
image `(1,3,2,2)`. -/
theorem imdbData_rank_coercion_get_shapes_witness :
    (ImdbData.make ⟨[1, 2, 2], [3, 4, 5, 6]⟩ ⟨[1], [7]⟩ ⟨[1], [8]⟩
        = some ⟨⟨[1, 1, 2, 2], [3, 4, 5, 6]⟩, ⟨[1], [7]⟩, ⟨[1], [8]⟩⟩
      ∧ ((ImdbData.mk ⟨[1, 1, 2, 2], [3, 4, 5, 6]⟩ ⟨[1], [7]⟩ ⟨[1], [8]⟩).getItem 0).map
            (fun t => t.1.shape) = some [1, 2, 2])
  ∧ (ImdbData.make ⟨[1, 3, 2, 2], List.replicate 12 0⟩ ⟨[1], [7]⟩ ⟨[1], [8]⟩
        = some ⟨⟨[1, 3, 2, 2], List.replicate 12 0⟩, ⟨[1], [7]⟩, ⟨[1], [8]⟩⟩
      ∧ ((ImdbData.mk ⟨[1, 3, 2, 2], List.replicate 12 0⟩ ⟨[1], [7]⟩ ⟨[1], [8]⟩).getItem 0).map
            (fun t => t.1.shape) = some [3, 2, 2]) :=
  ⟨imdbData_rank_coercion_get_shapes.1 ⟨[1, 2, 2], [3, 4, 5, 6]⟩ ⟨[1], [7]⟩ ⟨[1], [8]⟩
      1 2 2 0 rfl (by decide) (by decide) (by decide),
   imdbData_rank_coercion_get_shapes.2 ⟨[1, 3, 2, 2], List.replicate 12 0⟩ ⟨[1], [7]⟩ ⟨[1], [8]⟩
      1 3 2 2 0 rfl (by decide) (by decide) (by decide)⟩

theorem foldl_min_le_init (xs : List ℚ) (a : ℚ) : xs.foldl min a ≤ a := by
  induction xs generalizing a with
  | nil => simp
  | cons b bs ih => exact le_trans (ih (min a b)) (min_le_left a b)

theorem foldl_min_le_mem : ∀ (xs : List ℚ) (a x : ℚ), x ∈ xs → xs.foldl min a ≤ x
  | b :: bs, a, x, hx => by
    cases hx with
    | head => exact le_trans (foldl_min_le_init bs (min a b)) (min_le_right a b)
    | tail _ h => exact foldl_min_le_mem bs (min a b) x h

theorem init_le_foldl_max (xs : List ℚ) (a : ℚ) : a ≤ xs.foldl max a := by
  induction xs generalizing a with
  | nil => simp
  | cons b bs ih => exact le_trans (le_max_left a b) (ih (max a b))

theorem mem_le_foldl_max : ∀ (xs : List ℚ) (a x : ℚ), x ∈ xs → x ≤ xs.foldl max a
  | b :: bs, a, x, hx => by
    cases hx with
    | head => exact le_trans (le_max_right a b) (init_le_foldl_max bs (max a b))
    | tail _ h => exact mem_le_foldl_max bs (max a b) x h

theorem npMin_le (l : List ℚ) (x : ℚ) (hx : x ∈ l) : npMin l ≤ x := by
  cases l with
  | nil => cases hx
  | cons y ys =>
    cases hx with
    | head => exact foldl_min_le_init ys x
    | tail _ h => exact foldl_min_le_mem ys y x h

theorem le_npMax (l : List ℚ) (x : ℚ) (hx : x ∈ l) : x ≤ npMax l := by
  cases l with
  | nil => cases hx
  | cons y ys =>
    cases hx with
    | head => exact init_le_foldl_max ys x
    | tail _ h => exact mem_le_foldl_max ys y x h

theorem normalize_mem_unit (v : NDArray) (hlt : npMin v.data < npMax v.data) :
    ∀ x ∈ (normalizeMinMax v).data, 0 ≤ x ∧ x ≤ 1 := by
  intro x hx
  simp only [normalizeMinMax, List.mem_map] at hx
  obtain ⟨y, hy, rfl⟩ := hx
  have h1 : npMin v.data ≤ y := npMin_le _ y hy
  have h2 : y ≤ npMax v.data := le_npMax _ y hy
  have hpos : 0 < npMax v.data - npMin v.data := by linarith
  constructor
  · apply div_nonneg <;> linarith
  · rw [div_le_one hpos]; linarith

theorem processVolume_eq_spec (P : Preprocessor) (orientation : String)
    (rs rb : Bool) (rc : Option String) (q : NDArray × NDArray) :
    processVolume P orientation rs rb rc q = specProcessVolume P orientation rs rb rc q := by
  cases rs <;> cases rb <;> cases hrc : pyTruthy rc <;>
    simp [processVolume, specProcessVolume, specSteps, hrc]

theorem lapLoop_eq_spec (loader : String → Option NDArray) (P : Preprocessor)
    (orientation : String) (rw rs rb : Bool) (rc : Option String)
    (paths : List (String × String)) :
    lapLoop loader P orientation rw rs rb rc paths
      = specLapLoop loader P orientation rw rs rb rc paths := by
  induction paths with
  | nil => rfl
  | cons fp rest ih =>
    simp only [lapLoop, specLapLoop, ih, processVolume_eq_spec]

/-- A trivial, fully computable `Preprocessor` instance (identity transforms
and the spec-modelled weight estimator with 3 classes), used for concrete
evaluations. -/
def idP : Preprocessor :=
  ⟨fun v l _ => (v, l), fun v l => (v, l), fun l _ => l, fun v l => (v, l),
   estimate_weights_mfb_spec 3⟩

/-- C3: each volume is first min-max normalized using its own global min and
max (landing in [0,1] whenever min < max), and only afterwards are the
preprocessing steps applied in the fixed order orientation →
(optional) reduce_slices → (optional) remap_labels → (optional) remove_black →
(optional) estimate_weights_mfb: the source-side `load_and_preprocess` equals
the spec-side pipeline built as a normalize-first ordered step list. -/
theorem load_and_preprocess_normalizes_first_fixed_order
    (loader : String → Option NDArray) (P : Preprocessor)
    (data_dir label_dir volumes_txt orientation : String)
    (rw rs rb : Bool) (rc : Option String) (v : NDArray)
    (hlt : npMin v.data < npMax v.data) :
    load_and_preprocess loader P data_dir label_dir volumes_txt orientation rw rs rb rc
      = spec_load_and_preprocess loader P data_dir label_dir volumes_txt orientation rw rs rb rc
  ∧ ∀ x ∈ (normalizeMinMax v).data, 0 ≤ x ∧ x ≤ 1 :=
  ⟨lapLoop_eq_spec loader P orientation rw rs rb rc _, normalize_mem_unit v hlt⟩

/-- Witness for C3 at concrete inputs. -/
theorem load_and_preprocess_normalizes_first_fixed_order_witness :
    (load_and_preprocess (fun _ => none) idP "d" "l" "" "COR" true true true (some "Neo")
       = spec_load_and_preprocess (fun _ => none) idP "d" "l" "" "COR" true true true
           (some "Neo"))
  ∧ (0 ≤ (1 : ℚ) ∧ (1 : ℚ) ≤ 1) :=
  ⟨(load_and_preprocess_normalizes_first_fixed_order (fun _ => none) idP "d" "l" "" "COR"
      true true true (some "Neo") ⟨[2], [0, 1]⟩ (by decide)).1,
   (load_and_preprocess_normalizes_first_fixed_order (fun _ => none) idP "d" "l" "" "COR"
      true true true (some "Neo") ⟨[2], [0, 1]⟩ (by decide)).2 1
     (by simp [normalizeMinMax, npMin, npMax])⟩

theorem len3_form (l : List Nat) (h : l.length = 3) : ∃ x y z, l = [x, y, z] := by
  cases l with
  | nil => simp at h
  | cons a t =>
    cases t with
    | nil => simp at h
    | cons b t2 =>
      cases t2 with
      | nil => simp at h
      | cons c t3 =>
        cases t3 with
        | nil => exact ⟨a, b, c, rfl⟩
        | cons d t4 => simp at h

/-- C2: if any two processed volumes' slice arrays disagree in height or
width, the concatenation inside `_convertToHd5` raises (numpy refuses to
concatenate arrays with mismatched trailing dimensions), so the function
errors out instead of returning a malformed corpus. -/
theorem convertToHd5_mismatched_HW_errors (dl ll cl wl : List NDArray)
    (hrank : ∀ a ∈ dl, a.shape.length = 3)
    (a b : NDArray) (ha : a ∈ dl) (hb : b ∈ dl)
    (hne : a.shape.tail ≠ b.shape.tail) :
    convertToHd5 dl ll cl wl = none := by
  cases dl with
  | nil => cases ha
  | cons d0 rest =>
    obtain ⟨n, hh, ww, h0⟩ := len3_form d0.shape (hrank d0 (List.mem_cons_self _ _))
    have hex : ∃ c, c ∈ rest ∧ c.shape.tail ≠ d0.shape.tail := by
      by_cases hhA : a.shape.tail = d0.shape.tail
      · have hhB : b.shape.tail ≠ d0.shape.tail := fun hB => hne (hhA.trans hB.symm)
        cases hb with
        | head => exact absurd rfl hhB
        | tail _ hbr => exact ⟨b, hbr, hhB⟩
      · cases ha with
        | head => exact absurd rfl hhA
        | tail _ har => exact ⟨a, har, hhA⟩
    obtain ⟨c, hcr, hcne⟩ := hex
    have hd0t : d0.shape.tail = [hh, ww] := by simp [h0]
    have hprop : ¬ ∀ x ∈ rest, x.shape.length = 3 ∧ x.shape.tail = [hh, ww] := by
      intro hall
      exact hcne ((hall c hcr).2.trans hd0t.symm)
    simp [convertToHd5, concatSlices, npConcatenate, h0, hprop]

/-- Witness for C2: two rank-3 volumes with widths 2 and 3. -/
theorem convertToHd5_mismatched_HW_errors_witness :
    convertToHd5 [⟨[1, 2, 2], [0, 0, 0, 0]⟩, ⟨[1, 2, 3], [0, 0, 0, 0, 0, 0]⟩] [] [] []
      = none :=
  convertToHd5_mismatched_HW_errors _ _ _ _ (by decide)
    ⟨[1, 2, 2], [0, 0, 0, 0]⟩ ⟨[1, 2, 3], [0, 0, 0, 0, 0, 0]⟩
    (by decide) (by decide) (by decide)

/-- Concrete loader for the C1 failing input: two all-foreground volumes of
shapes (2,2,2) and (1,2,2) whose labelmaps are constant class 1. -/
def cLoaderC1 : String → Option NDArray := fun p =>
  if p = "d/v1/mri/orig.mgz" then some ⟨[2, 2, 2], List.replicate 8 1⟩
  else if p = "lb/v1_glm.mgz" then some ⟨[2, 2, 2], List.replicate 8 1⟩
  else if p = "d/v2/mri/orig.mgz" then some ⟨[1, 2, 2], List.replicate 4 1⟩
  else if p = "lb/v2_glm.mgz" then some ⟨[1, 2, 2], List.replicate 4 1⟩
  else none

/-- C1 (code bug): with the spec-modelled `estimate_weights_mfb`, the
per-volume class weights are rank-1 vectors of length `num_class` (first
conjunct), but `_convertToHd5` pipes their concatenation through
`.reshape((-1, H, W))` (line 114): on two all-foreground volumes of shapes
(2,2,2) and (1,2,2) with 3 classes, reshaping the 6-element class-weight
concatenation into (-1,2,2) fails (second conjunct), so `_convertToHd5`
raises instead of returning four arrays of matching leading length (third
conjunct). -/
theorem convertToHd5_class_weight_reshape_bug :
    (load_and_preprocess cLoaderC1 idP "d" "lb" "v1\nv2" "COR" true true true
        (some "Neo")).map (fun r => r.2.2.1.map NDArray.shape) = some [[3], [3]]
  ∧ concatSlices [(estimate_weights_mfb_spec 3 ⟨[2, 2, 2], List.replicate 8 1⟩).1,
                  (estimate_weights_mfb_spec 3 ⟨[1, 2, 2], List.replicate 4 1⟩).1] 2 2 = none
  ∧ convertToHd5Full cLoaderC1 idP "d" "lb" "v1\nv2" (some "Neo") "COR" = none := by
  refine ⟨by decide, by decide, by decide⟩

theorem lapLoop_of_loadVolumes (loader : String → Option NDArray) (P : Preprocessor)
    (orientation : String) (rs rb : Bool) (rc : Option String)
    (paths : List (String × String)) (pairs : List (NDArray × NDArray))
    (h : loadVolumes loader paths = some pairs) :
    lapLoop loader P orientation true rs rb rc paths
      = some (pairs.map (fun q => (processVolume P orientation rs rb rc q).1),
              pairs.map (fun q => (processVolume P orientation rs rb rc q).2),
              pairs.map (fun q =>
                (P.estimate_weights_mfb (processVolume P orientation rs rb rc q).2).1),
              pairs.map (fun q =>
                (P.estimate_weights_mfb (processVolume P orientation rs rb rc q).2).2)) := by
  induction paths generalizing pairs with
  | nil =>
    simp [loadVolumes] at h
    subst h
    rfl
  | cons fp rest ih =>
    rw [loadVolumes] at h
    cases hl1 : loader fp.1 with
    | none => rw [hl1] at h; simp at h
    | some v =>
      cases hl2 : loader fp.2 with
      | none => rw [hl1, hl2] at h; simp at h
      | some l =>
        rw [hl1, hl2] at h
        cases hrest : loadVolumes loader rest with
        | none => rw [hrest] at h; simp at h
        | some prs =>
          rw [hrest] at h
          simp at h
          subst h
          rw [lapLoop, hl1, hl2, ih prs hrest]
          simp

theorem loadVolumes_length (loader : String → Option NDArray)
    (paths : List (String × String)) (pairs : List (NDArray × NDArray))
    (h : loadVolumes loader paths = some pairs) : pairs.length = paths.length := by
  induction paths generalizing pairs with
  | nil => simp [loadVolumes] at h; subst h; rfl
  | cons fp rest ih =>
    rw [loadVolumes] at h
    cases hl1 : loader fp.1 with
    | none => rw [hl1] at h; simp at h
    | some v =>
      cases hl2 : loader fp.2 with
      | none => rw [hl1, hl2] at h; simp at h
      | some l =>
        rw [hl1, hl2] at h
        cases hrest : loadVolumes loader rest with
        | none => rw [hrest] at h; simp at h
        | some prs =>
          rw [hrest] at h
          simp at h
          subst h
          simp [ih prs hrest]

theorem get_concat_left (A B : List ℚ) (i : Nat) (hA : A.length = 80) (hi : i < 5) :
    (NDArray.mk [8, 4, 4] (A ++ B)).get i = (NDArray.mk [5, 4, 4] A).get i := by
  have h8 : i < 8 := by omega
  simp only [NDArray.get, hi, h8, if_pos]
  rw [List.drop_append_eq_append_drop, List.take_append_eq_append_take]
  have hlen : (A.drop (i * [4, 4].prod)).length = 80 - i * [4, 4].prod := by
    rw [List.length_drop, hA]
  have h16 : [4, 4].prod - (A.drop (i * [4, 4].prod)).length = 0 := by
    rw [hlen]; simp [List.prod]; omega
  rw [h16, List.take_zero, List.append_nil]

theorem get_concat_right (A B : List ℚ) (j : Nat) (hA : A.length = 80) (hj : j < 3) :
    (NDArray.mk [8, 4, 4] (A ++ B)).get (5 + j) = (NDArray.mk [3, 4, 4] B).get j := by
  have h8 : 5 + j < 8 := by omega
  simp only [NDArray.get, hj, h8, if_pos]
  rw [List.drop_append_eq_append_drop]
  have hnil : A.drop ((5 + j) * [4, 4].prod) = [] := by
    apply List.drop_eq_nil_of_le
    rw [hA]; simp [List.prod]; omega
  have harith : (5 + j) * [4, 4].prod - A.length = j * [4, 4].prod := by
    rw [hA]; simp [List.prod]; omega
  rw [hnil, harith, List.nil_append]

/-- C6: `load_and_preprocess` returns parallel lists with exactly one entry
per volume ID in input-file order (entry k processed from loaded pair k), and
the `_convertToHd5` concatenation of two stacks of shapes (5,4,4) and (3,4,4)
yields a corpus of exactly 8 slices whose first 5 are the first volume's
slices in order and whose last 3 are the second volume's, contiguously. -/
theorem load_and_preprocess_order_preserving_concat
    (loader : String → Option NDArray) (P : Preprocessor)
    (data_dir label_dir volumes_txt orientation : String) (rs rb : Bool)
    (rc : Option String) (pairs : List (NDArray × NDArray))
    (hload : loadVolumes loader (filePaths data_dir label_dir (pySplitlines volumes_txt))
        = some pairs)
    (A B : List ℚ) (i j : Nat) (hA : A.length = 80) (hB : B.length = 48)
    (hi : i < 5) (hj : j < 3) :
    (load_and_preprocess loader P data_dir label_dir volumes_txt orientation true rs rb rc
        = some (pairs.map (fun q => (processVolume P orientation rs rb rc q).1),
                pairs.map (fun q => (processVolume P orientation rs rb rc q).2),
                pairs.map (fun q =>
                  (P.estimate_weights_mfb (processVolume P orientation rs rb rc q).2).1),
                pairs.map (fun q =>
                  (P.estimate_weights_mfb (processVolume P orientation rs rb rc q).2).2)))
  ∧ pairs.length = (pySplitlines volumes_txt).length
  ∧ concatSlices [⟨[5, 4, 4], A⟩, ⟨[3, 4, 4], B⟩] 4 4 = some ⟨[8, 4, 4], A ++ B⟩
  ∧ (NDArray.mk [8, 4, 4] (A ++ B)).get i = (NDArray.mk [5, 4, 4] A).get i
  ∧ (NDArray.mk [8, 4, 4] (A ++ B)).get (5 + j) = (NDArray.mk [3, 4, 4] B).get j := by
  refine ⟨lapLoop_of_loadVolumes loader P orientation rs rb rc _ pairs hload,
          (loadVolumes_length loader _ pairs hload).trans (by simp [filePaths]),
          ?_, get_concat_left A B i hA hi, get_concat_right A B j hA hj⟩
  simp [concatSlices, npConcatenate, reshapeNeg1, hA, hB]
  decide

/-- Concrete loader for the C6 witness: all-foreground volumes of shapes
(5,4,4) and (3,4,4). -/
def cLoaderC6 : String → Option NDArray := fun p =>
  if p = "d/v1/mri/orig.mgz" then some ⟨[5, 4, 4], List.replicate 80 0⟩
  else if p = "lb/v1_glm.mgz" then some ⟨[5, 4, 4], List.replicate 80 1⟩
  else if p = "d/v2/mri/orig.mgz" then some ⟨[3, 4, 4], List.replicate 48 0⟩
  else if p = "lb/v2_glm.mgz" then some ⟨[3, 4, 4], List.replicate 48 1⟩
  else none

/-- The two loaded (volume, labelmap) pairs of the C6 witness, in input order. -/
def cPairsC6 : List (NDArray × NDArray) :=
  [(⟨[5, 4, 4], List.replicate 80 0⟩, ⟨[5, 4, 4], List.replicate 80 1⟩),
   (⟨[3, 4, 4], List.replicate 48 0⟩, ⟨[3, 4, 4], List.replicate 48 1⟩)]

/-- Witness for C6 at concrete inputs (slice 2 of the first stack and slice 1
of the second). -/
theorem load_and_preprocess_order_preserving_concat_witness :
    (load_and_preprocess cLoaderC6 idP "d" "lb" "v1\nv2" "COR" true false false none
        = some (cPairsC6.map (fun q => (processVolume idP "COR" false false none q).1),
                cPairsC6.map (fun q => (processVolume idP "COR" false false none q).2),
                cPairsC6.map (fun q =>
                  (idP.estimate_weights_mfb (processVolume idP "COR" false false none q).2).1),
                cPairsC6.map (fun q =>
                  (idP.estimate_weights_mfb (processVolume idP "COR" false false none q).2).2)))
  ∧ cPairsC6.length = (pySplitlines "v1\nv2").length
  ∧ concatSlices [⟨[5, 4, 4], List.replicate 80 (0 : ℚ)⟩, ⟨[3, 4, 4], List.replicate 48 0⟩] 4 4
      = some ⟨[8, 4, 4], List.replicate 80 (0 : ℚ) ++ List.replicate 48 0⟩
  ∧ (NDArray.mk [8, 4, 4] (List.replicate 80 (0 : ℚ) ++ List.replicate 48 0)).get 2
      = (NDArray.mk [5, 4, 4] (List.replicate 80 (0 : ℚ))).get 2
  ∧ (NDArray.mk [8, 4, 4] (List.replicate 80 (0 : ℚ) ++ List.replicate 48 0)).get (5 + 1)
      = (NDArray.mk [3, 4, 4] (List.replicate 48 (0 : ℚ))).get 1 :=
  load_and_preprocess_order_preserving_concat cLoaderC6 idP "d" "lb" "v1\nv2" "COR"
    false false none cPairsC6 (by decide) (List.replicate 80 0) (List.replicate 48 0)
    2 1 (by decide) (by decide) (by decide) (by decide)

theorem strAppendEmpty (s : String) : s ++ "" = s := by
  apply String.ext; simp

theorem endsSlash_append_slash (s : String) : endsSlash (s ++ "/") = true := by
  simp [endsSlash, String.data_append]

theorem osJoin3_empty_mid (d s : String) : osJoin3 d "" s = osJoin2 d s := by
  have hinner : osJoin2 d "" = if (d.data.isEmpty || endsSlash d) = true then d
      else d ++ "/" := by
    rw [osJoin2]
    rw [if_neg (by decide : ¬ startsSlash "" = true)]
    by_cases hc : (d.data.isEmpty || endsSlash d) = true
    · rw [if_pos hc, if_pos hc, strAppendEmpty]
    · rw [if_neg hc, if_neg hc, strAppendEmpty]
  rw [osJoin3, hinner]
  by_cases hc : (d.data.isEmpty || endsSlash d) = true
  · rw [if_pos hc]
  · rw [if_neg hc]
    rw [osJoin2, osJoin2]
    by_cases hs : startsSlash s = true
    · rw [if_pos hs, if_pos hs]
    · rw [if_neg hs, if_neg hs]
      rw [if_pos (by simp [endsSlash_append_slash])]
      rw [if_neg hc]

theorem lapLoop_none_of_load_fail (loader : String → Option NDArray) (P : Preprocessor)
    (orientation : String) (rwt rs rb : Bool) (rc : Option String)
    (paths : List (String × String)) (pr : String × String) (hmem : pr ∈ paths)
    (hfail : loader pr.1 = none) :
    lapLoop loader P orientation rwt rs rb rc paths = none := by
  induction paths with
  | nil => cases hmem
  | cons fp rest ih =>
    cases hmem with
    | head => rw [lapLoop, hfail]
    | tail _ hr =>
      rw [lapLoop]
      cases h1 : loader fp.1 with
      | none => rfl
      | some v =>
        cases h2 : loader fp.2 with
        | none => rfl
        | some l => rw [ih hr]

/-- C8: a blank line in the volumes file is not skipped: it contributes the
degenerate data path `os.path.join(data_dir, '', 'mri/orig.mgz')`, which is
`data_dir` joined directly with `'mri/orig.mgz'`; when loading that path
fails, the whole `load_and_preprocess` batch aborts. -/
theorem blank_line_builds_degenerate_path_and_aborts
    (loader : String → Option NDArray) (P : Preprocessor)
    (data_dir label_dir volumes_txt orientation : String)
    (rwt rs rb : Bool) (rc : Option String)
    (hblank : "" ∈ pySplitlines volumes_txt)
    (hfail : loader (osJoin2 data_dir "mri/orig.mgz") = none) :
    osJoin3 data_dir "" "mri/orig.mgz" = osJoin2 data_dir "mri/orig.mgz"
  ∧ (osJoin3 data_dir "" "mri/orig.mgz", osJoin2 label_dir ("" ++ "_glm.mgz"))
      ∈ filePaths data_dir label_dir (pySplitlines volumes_txt)
  ∧ load_and_preprocess loader P data_dir label_dir volumes_txt orientation rwt rs rb rc
      = none := by
  have hmem2 : (osJoin3 data_dir "" "mri/orig.mgz", osJoin2 label_dir ("" ++ "_glm.mgz"))
      ∈ filePaths data_dir label_dir (pySplitlines volumes_txt) :=
    List.mem_map_of_mem
      (fun vol => (osJoin3 data_dir vol "mri/orig.mgz",
                   osJoin2 label_dir (vol ++ "_glm.mgz"))) hblank
  have hfail2 : loader ((osJoin3 data_dir "" "mri/orig.mgz",
      osJoin2 label_dir ("" ++ "_glm.mgz")).1) = none := by
    show loader (osJoin3 data_dir "" "mri/orig.mgz") = none
    rw [osJoin3_empty_mid]
    exact hfail
  refine ⟨osJoin3_empty_mid data_dir "mri/orig.mgz", hmem2, ?_⟩
  show lapLoop loader P orientation rwt rs rb rc
      (filePaths data_dir label_dir (pySplitlines volumes_txt)) = none
  exact lapLoop_none_of_load_fail loader P orientation rwt rs rb rc _ _ hmem2 hfail2

/-- Witness for C8: the volumes file "v1\n\nv2" with a failing loader. -/
theorem blank_line_builds_degenerate_path_and_aborts_witness :
    osJoin3 "d" "" "mri/orig.mgz" = osJoin2 "d" "mri/orig.mgz"
  ∧ (osJoin3 "d" "" "mri/orig.mgz", osJoin2 "lb" ("" ++ "_glm.mgz"))
      ∈ filePaths "d" "lb" (pySplitlines "v1\n\nv2")
  ∧ load_and_preprocess (fun _ => none) idP "d" "lb" "v1\n\nv2" "COR" true true true
      (some "Neo") = none :=
  blank_line_builds_degenerate_path_and_aborts (fun _ => none) idP "d" "lb" "v1\n\nv2"
    "COR" true true true (some "Neo") (by decide) rfl

theorem ImdbData.make_components (X y w : NDArray) (d : ImdbData)
    (h : ImdbData.make X y w = some d) : d.y = y ∧ d.w = w := by
  unfold ImdbData.make at h
  by_cases h4 : X.shape.length = 4
  · rw [if_pos h4] at h
    cases h
    exact ⟨rfl, rfl⟩
  · rw [if_neg h4] at h
    cases he : expandDims1 X with
    | none => rw [he] at h; cases h
    | some X2 => rw [he] at h; cases h; exact ⟨rfl, rfl⟩

/-- C9: `get_data` builds both `ImdbData` with the per-class weight dataset
(key `OASIS_class_weights_<split>`) as the third (weight) argument; its result
is a function of only the six data/label/class-weight reads (`gdPure`), and
the two per-pixel weight files are opened (they appear in the handle trace)
but their contents are never read. -/
theorem get_data_uses_class_weights_ignores_pixel_weights
    (store : String → String → NDArray) (p : DataParams) (tr te : ImdbData)
    (h : (get_data store p).1 = some (tr, te)) :
    tr.w = store (osJoin2 p.data_dir p.train_class_weights_file) "OASIS_class_weights_train"
  ∧ te.w = store (osJoin2 p.data_dir p.test_class_weights_file) "OASIS_class_weights_test"
  ∧ (get_data store p).1
      = gdPure (store (osJoin2 p.data_dir p.train_data_file) "OASIS_data_train")
          (store (osJoin2 p.data_dir p.train_label_file) "OASIS_label_train")
          (store (osJoin2 p.data_dir p.train_class_weights_file) "OASIS_class_weights_train")
          (store (osJoin2 p.data_dir p.test_data_file) "OASIS_data_test")
          (store (osJoin2 p.data_dir p.test_label_file) "OASIS_label_test")
          (store (osJoin2 p.data_dir p.test_class_weights_file) "OASIS_class_weights_test")
  ∧ HEvent.openF (osJoin2 p.data_dir p.train_weights_file) ∈ (get_data store p).2
  ∧ HEvent.openF (osJoin2 p.data_dir p.test_weights_file) ∈ (get_data store p).2 := by
  have hmain := h
  unfold get_data at hmain
  cases h1 : ImdbData.make (store (osJoin2 p.data_dir p.train_data_file) "OASIS_data_train")
      (store (osJoin2 p.data_dir p.train_label_file) "OASIS_label_train")
      (store (osJoin2 p.data_dir p.train_class_weights_file) "OASIS_class_weights_train") with
  | none => rw [h1] at hmain; simp at hmain
  | some dtr =>
    cases h2 : ImdbData.make (store (osJoin2 p.data_dir p.test_data_file) "OASIS_data_test")
        (store (osJoin2 p.data_dir p.test_label_file) "OASIS_label_test")
        (store (osJoin2 p.data_dir p.test_class_weights_file) "OASIS_class_weights_test") with
    | none => rw [h1, h2] at hmain; simp at hmain
    | some dte =>
      rw [h1, h2] at hmain
      simp only [Option.some.injEq, Prod.mk.injEq] at hmain
      obtain ⟨htr, hte⟩ := hmain
      subst htr
      subst hte
      refine ⟨(ImdbData.make_components _ _ _ _ h1).2,
              (ImdbData.make_components _ _ _ _ h2).2, rfl, ?_, ?_⟩
      · simp [get_data, gdPaths]
      · simp [get_data, gdPaths]

/-- Constant store for the C9 witness. -/
def cStoreC9 : String → String → NDArray := fun _ _ => ⟨[1, 1, 1], [0]⟩

/-- Parameters for the C9 witness. -/
def cParamsC9 : DataParams :=
  ⟨"dd", "dtr.h5", "ltr.h5", "cwtr.h5", "wtr.h5", "dte.h5", "lte.h5", "cwte.h5", "wte.h5"⟩

/-- The dataset value built by `get_data` in the C9 witness. -/
def cImdbC9 : ImdbData := ⟨⟨[1, 1, 1, 1], [0]⟩, ⟨[1, 1, 1], [0]⟩, ⟨[1, 1, 1], [0]⟩⟩

/-- Witness for C9 at concrete inputs. -/
theorem get_data_uses_class_weights_ignores_pixel_weights_witness :
    cImdbC9.w = cStoreC9 (osJoin2 cParamsC9.data_dir cParamsC9.train_class_weights_file)
        "OASIS_class_weights_train"
  ∧ cImdbC9.w = cStoreC9 (osJoin2 cParamsC9.data_dir cParamsC9.test_class_weights_file)
        "OASIS_class_weights_test"
  ∧ (get_data cStoreC9 cParamsC9).1
      = gdPure (cStoreC9 (osJoin2 cParamsC9.data_dir cParamsC9.train_data_file)
            "OASIS_data_train")
          (cStoreC9 (osJoin2 cParamsC9.data_dir cParamsC9.train_label_file)
            "OASIS_label_train")
          (cStoreC9 (osJoin2 cParamsC9.data_dir cParamsC9.train_class_weights_file)
            "OASIS_class_weights_train")
          (cStoreC9 (osJoin2 cParamsC9.data_dir cParamsC9.test_data_file) "OASIS_data_test")
          (cStoreC9 (osJoin2 cParamsC9.data_dir cParamsC9.test_label_file) "OASIS_label_test")
          (cStoreC9 (osJoin2 cParamsC9.data_dir cParamsC9.test_class_weights_file)
            "OASIS_class_weights_test")
  ∧ HEvent.openF (osJoin2 cParamsC9.data_dir cParamsC9.train_weights_file)
      ∈ (get_data cStoreC9 cParamsC9).2
  ∧ HEvent.openF (osJoin2 cParamsC9.data_dir cParamsC9.test_weights_file)
      ∈ (get_data cStoreC9 cParamsC9).2 :=
  get_data_uses_class_weights_ignores_pixel_weights cStoreC9 cParamsC9 cImdbC9 cImdbC9
    (by decide)

theorem foldl_hstep_creates (l : List HEvent) (acc : List String)
    (hall : ∀ e ∈ l, ∃ f k, e = HEvent.createD f k) : l.foldl hstep acc = acc := by
  induction l generalizing acc with
  | nil => rfl
  | cons e rest ih =>
    obtain ⟨f, k, rfl⟩ := hall e (List.mem_cons_self _ _)
    exact ih acc (fun e2 he2 => hall e2 (List.mem_cons_of_mem _ he2))

theorem mainWriteTrace_closes_all (d : String) (failAt : Option Nat) :
    openAfter (mainWriteTrace d failAt) = [] := by
  have hcr : ∀ e ∈ (match failAt with
      | none => mainCreates d
      | some k => (mainCreates d).take k), ∃ f k2, e = HEvent.createD f k2 := by
    intro e he
    have hmem : e ∈ mainCreates d := by
      cases failAt with
      | none => exact he
      | some k => exact List.take_subset _ _ he
    simp only [mainCreates, List.mem_cons, List.not_mem_nil, or_false] at hmem
    rcases hmem with h | h | h | h | h | h | h | h <;> exact ⟨_, _, h⟩
  rw [openAfter, mainWriteTrace.eq_def, List.foldl_append, List.foldl_append]
  rw [foldl_hstep_creates _ _ hcr]
  simp [mainWriteFiles, hstep, List.erase_cons_head]

theorem openAfter_get_data (store : String → String → NDArray) (p : DataParams) :
    openAfter (get_data store p).2 = (gdPaths p).reverse := by
  rfl

/-- C7 counterexample: after `get_data` returns, the eight read handles it
opened are all still open — the claim that every handle the module opens is
closed on all exit paths is false. -/
theorem get_data_leaves_handles_open_counterexample :
    openAfter (get_data (fun _ _ => ⟨[1, 1, 1], [0]⟩)
      ⟨"dd", "a", "b", "c", "d2", "e", "f", "g", "h2"⟩).2 ≠ [] := by decide

/-- C7 amended: the `__main__` corpus-build writer block closes all eight
write handles on every exit path (the `with` statement closes them even when a
`create_dataset` call fails part-way), but `get_data` closes none of its eight
read handles: they all remain open when it returns. -/
theorem main_write_closed_get_data_reads_leak (d : String) (failAt : Option Nat)
    (store : String → String → NDArray) (p : DataParams) :
    openAfter (mainWriteTrace d failAt) = []
  ∧ openAfter (get_data store p).2 = (gdPaths p).reverse :=
  ⟨mainWriteTrace_closes_all d failAt, openAfter_get_data store p⟩

theorem mem_rmtree (r x : String) (fs : List String) (h : x ∈ rmtree r fs) :
    x ∈ fs ∧ underDir r x = false := by
  have hm := List.mem_filter.mp h
  refine ⟨hm.1, ?_⟩
  simpa using hm.2

theorem underDir_trans (a b c : String) (h1 : underDir a b = true)
    (h2 : underDir b c = true) : underDir a c = true := by
  simp only [underDir, Bool.or_eq_true, beq_iff_eq, List.isPrefixOf_iff_prefix] at h1 h2 ⊢
  rcases h1 with rfl | h1
  · exact h2
  · rcases h2 with rfl | h2
    · right; exact h1
    · right
      refine h1.trans (List.IsPrefix.trans ?_ h2)
      rw [String.data_append]
      exact List.prefix_append _ _

/-- C10: with `use_last_checkpoint = False`, `LogWriter.__init__` recursively
deletes any pre-existing train/val log directory trees before the writers
recreate the two directories (no strict member of either tree survives); with
`use_last_checkpoint = True`, every existing filesystem entry is left intact.
The two closure hypotheses say that a directory with entries below it exists
itself, as on a real filesystem. -/
theorem logWriterInit_deletes_or_keeps_log_dirs (ldn en : String) (fs : List String)
    (q r : String)
    (hwf_t : ∀ s ∈ fs, underDir (trainLogPath ldn en) s = true → trainLogPath ldn en ∈ fs)
    (hwf_v : ∀ s ∈ fs, underDir (valLogPath ldn en) s = true → valLogPath ldn en ∈ fs)
    (hq : underDir (trainLogPath ldn en) q = true ∨ underDir (valLogPath ldn en) q = true)
    (hqt : q ≠ trainLogPath ldn en) (hqv : q ≠ valLogPath ldn en)
    (hr : r ∈ fs) :
    q ∉ logWriterInit ldn en false fs ∧ r ∈ logWriterInit ldn en true fs := by
  constructor
  · intro hmem
    simp only [logWriterInit, List.mem_cons] at hmem
    rcases hmem with h | h | h
    · exact hqt h
    · exact hqv h
    · by_cases hT : trainLogPath ldn en ∈ fs
      · rw [if_pos hT] at h
        by_cases hV : valLogPath ldn en ∈ rmtree (trainLogPath ldn en) fs
        · rw [if_pos hV] at h
          obtain ⟨hq1, hVfalse⟩ := mem_rmtree _ _ _ h
          obtain ⟨hq2, hTfalse⟩ := mem_rmtree _ _ _ hq1
          rcases hq with hqT | hqV
          · simp [hqT] at hTfalse
          · simp [hqV] at hVfalse
        · rw [if_neg hV] at h
          obtain ⟨hq2, hTfalse⟩ := mem_rmtree _ _ _ h
          rcases hq with hqT | hqV
          · simp [hqT] at hTfalse
          · have hVfs : valLogPath ldn en ∈ fs := hwf_v q hq2 hqV
            have hTV : underDir (trainLogPath ldn en) (valLogPath ldn en) = true := by
              by_contra hc
              have hfalse : underDir (trainLogPath ldn en) (valLogPath ldn en) = false :=
                Bool.eq_false_iff.mpr hc
              exact hV (List.mem_filter.mpr ⟨hVfs, by simp [hfalse]⟩)
            have htq := underDir_trans _ _ _ hTV hqV
            simp [htq] at hTfalse
      · rw [if_neg hT] at h
        by_cases hV : valLogPath ldn en ∈ fs
        · rw [if_pos hV] at h
          obtain ⟨hq1, hVfalse⟩ := mem_rmtree _ _ _ h
          rcases hq with hqT | hqV
          · exact hT (hwf_t q hq1 hqT)
          · simp [hqV] at hVfalse
        · rw [if_neg hV] at h
          rcases hq with hqT | hqV
          · exact hT (hwf_t q h hqT)
          · exact hV (hwf_v q h hqV)
  · exact List.mem_cons_of_mem _ (List.mem_cons_of_mem _ hr)

/-- Witness for C10: a filesystem holding the train log directory, a file
inside it, and an unrelated entry. -/
theorem logWriterInit_deletes_or_keeps_log_dirs_witness :
    "lg/e/train/x" ∉ logWriterInit "lg" "e" false ["lg/e/train", "lg/e/train/x", "other"]
  ∧ "other" ∈ logWriterInit "lg" "e" true ["lg/e/train", "lg/e/train/x", "other"] :=
  logWriterInit_deletes_or_keeps_log_dirs "lg" "e" ["lg/e/train", "lg/e/train/x", "other"]
    "lg/e/train/x" "other" (by decide) (by decide) (by decide) (by decide) (by decide)
    (by decide)
